import Mathlib

/-!
Verification of the WebSocket protocol engine (src/websocket.c, src/socket.c,
src/vrtql.c) against its natural-language specification.

Bytes are modelled as natural numbers (values below 256 on well-formed wire
data); byte sequences as lists of naturals.  Machine arithmetic that the C
code performs on unsigned char is made explicit with modulo 256.  Fallible
and stateful operations are embedded as pure functions returning the new
state together with their observable effects (socket writes, hook calls).
-/

/-- Result codes of the frame parser (enum fs_t in websocket.h, as used by
vws_deserialize in websocket.c). -/
inductive fs_t where
  | FRAME_COMPLETE
  | FRAME_INCOMPLETE
  | FRAME_ERROR
deriving DecidableEq, Repr

/-- A WebSocket frame (struct vws_frame).  The fields fin, opcode and mask
are kept as naturals, mirroring the integral fields the C code reads and
writes; data holds the payload bytes and size the payload length. -/
structure vws_frame where
  fin : Nat
  opcode : Nat
  mask : Nat
  offset : Nat
  size : Nat
  data : List Nat
deriving DecidableEq, Repr

/-- Opcode constant TEXT_FRAME = 0x1 (websocket.h, per spec section 3). -/
def TEXT_FRAME : Nat := 1

/-- Opcode constant BINARY_FRAME = 0x2 (websocket.h, per spec section 3). -/
def BINARY_FRAME : Nat := 2

/-- Opcode constant CONTINUATION_FRAME = 0x0 (websocket.h, per spec section 3). -/
def CONTINUATION_FRAME : Nat := 0

/-- Opcode constant CLOSE_FRAME = 0x8 (websocket.h, per spec section 3). -/
def CLOSE_FRAME : Nat := 8

/-- Opcode constant PING_FRAME = 0x9 (websocket.h, per spec section 3). -/
def PING_FRAME : Nat := 9

/-- Opcode constant PONG_FRAME = 0xA (websocket.h, per spec section 3). -/
def PONG_FRAME : Nat := 10

/-- The XOR masking loop shared by vws_serialize (Section 3: Masking) and the
masked branch of vws_deserialize: byte i of the output is byte i of the input
XORed with key byte i mod 4. -/
def maskWith (key : List Nat) : Nat → List Nat → List Nat
  | _, [] => []
  | i, b :: bs => (b ^^^ key.getD (i % 4) 0) :: maskWith key (i + 1) bs

/-- The length field written into byte 1 by vws_serialize: the payload length
itself up to 125, else the sentinel 126 (length up to 65535) or 127. -/
def lenField (n : Nat) : Nat :=
  if n ≤ 125 then n else if n ≤ 65535 then 126 else 127

/-- The extended payload-length bytes vws_serialize appends after byte 1:
none, a 2-byte big-endian value, or an 8-byte big-endian value, written in C
as shifts masked with 0xFF. -/
def lenExtBytes (n : Nat) : List Nat :=
  if n ≤ 125 then []
  else if n ≤ 65535 then [(n >>> 8) &&& 255, n &&& 255]
  else [(n >>> 56) &&& 255, (n >>> 48) &&& 255, (n >>> 40) &&& 255,
        (n >>> 32) &&& 255, (n >>> 24) &&& 255, (n >>> 16) &&& 255,
        (n >>> 8) &&& 255, n &&& 255]

/-- Number of extended payload-length bytes (the header_size increments of
vws_serialize beyond the 2 base bytes). -/
def extLen (n : Nat) : Nat :=
  if n ≤ 125 then 0 else if n ≤ 65535 then 2 else 8

/-- Embedding of vws_serialize (websocket.c lines 769 to 886).  The 4-byte
masking key, drawn in C from RAND_bytes, is passed as the parameter key.
Byte 0 is fin shifted left 7 ORed with the opcode (stored into unsigned
char, hence mod 256); byte 1 carries the mask bit and the length field;
the extended length, key (iff masked) and (masked) payload follow.  The C
function reads f.size payload bytes from f.data, hence the take. -/
def vws_serialize (f : vws_frame) (key : List Nat) : List Nat :=
  let n := f.size
  let h0 := (f.fin <<< 7 ||| f.opcode) % 256
  if f.mask ≠ 0 then
    h0 :: (lenField n ||| 128) :: (lenExtBytes n ++ key ++ maskWith key 0 (f.data.take n))
  else
    h0 :: lenField n :: (lenExtBytes n ++ f.data.take n)

/-- The big-endian accumulation loop of vws_deserialize:
size = (size shifted left 8) ORed with the next byte. -/
def beFold (acc : Nat) : List Nat → Nat
  | [] => acc
  | b :: bs => beFold ((acc <<< 8) ||| b) bs

/-- Embedding of vws_deserialize (websocket.c lines 888 to 985).  The
argument consumed is the value of the callers consumed variable; it is
passed through unchanged unless a complete frame is parsed, exactly as the
C function writes through the pointer only on the FRAME_COMPLETE path.
Reads of data at index 2 + i are expressed on the list rest of bytes after
the two header bytes.  The local required_bytes of the C code is a size_t,
so the sums 2 + size_bytes + 4 + len and 2 + size_bytes + len wrap modulo
2 to the 64th; the wrap is made explicit here.  For 8-byte declared
lengths at the top of the 64-bit range the wrapped requirement is small,
the size check passes, and the C code proceeds to allocate len bytes and
read past the end of the input (undefined behavior); the embedding models
those out-of-range reads as the truncating take.  The 8-byte length
accumulation itself cannot wrap a 64-bit value, since input bytes are
below 256. -/
def vws_deserialize (data : List Nat) (consumed : Nat) :
    fs_t × Option vws_frame × Nat :=
  match data with
  | b0 :: b1 :: rest =>
    let fin := (b0 >>> 7) &&& 1
    let opcode := b0 &&& 15
    let mask := (b1 >>> 7) &&& 1
    let size0 := b1 &&& 127
    let sb := if size0 = 126 then 2 else if size0 = 127 then 8 else 0
    if 2 + rest.length < 2 + sb then (fs_t.FRAME_INCOMPLETE, none, consumed)
    else
      let len := if 0 < sb then beFold 0 (rest.take sb) else size0
      if mask ≠ 0 then
        if 2 + rest.length < (2 + sb + 4 + len) % 2 ^ 64 then
          (fs_t.FRAME_INCOMPLETE, none, consumed)
        else
          let mkey := (rest.drop sb).take 4
          (fs_t.FRAME_COMPLETE,
           some { fin := fin, opcode := opcode, mask := mask,
                  offset := 2 + sb + 4, size := len,
                  data := maskWith mkey 0 ((rest.drop (sb + 4)).take len) },
           (2 + sb + 4 + len) % 2 ^ 64)
      else
        if 2 + rest.length < (2 + sb + len) % 2 ^ 64 then
          (fs_t.FRAME_INCOMPLETE, none, consumed)
        else
          (fs_t.FRAME_COMPLETE,
           some { fin := fin, opcode := opcode, mask := mask,
                  offset := 2 + sb, size := len,
                  data := (rest.drop sb).take len },
           (2 + sb + len) % 2 ^ 64)
  | _ => (fs_t.FRAME_INCOMPLETE, none, consumed)

/-- The total number of bytes vws_deserialize requires before it can return
FRAME_COMPLETE on the given input: the value its local required_bytes
reaches on the path taken (2 when even the two header bytes are missing).
The C local is a size_t, so the total wraps modulo 2 to the 64th for
8-byte declared lengths at the top of the 64-bit range. -/
def required_bytes (data : List Nat) : Nat :=
  match data with
  | _ :: b1 :: rest =>
    let mask := (b1 >>> 7) &&& 1
    let size0 := b1 &&& 127
    let sb := if size0 = 126 then 2 else if size0 = 127 then 8 else 0
    let len := if 0 < sb then beFold 0 (rest.take sb) else size0
    (2 + sb + (if mask ≠ 0 then 4 else 0) + len) % 2 ^ 64
  | _ => 2

theorem maskWith_length (key : List Nat) (i : Nat) (bs : List Nat) :
    (maskWith key i bs).length = bs.length := by
  induction bs generalizing i with
  | nil => rfl
  | cons b bs ih => simp [maskWith, ih]

theorem maskWith_maskWith (key : List Nat) (i : Nat) (bs : List Nat) :
    maskWith key i (maskWith key i bs) = bs := by
  induction bs generalizing i with
  | nil => rfl
  | cons b bs ih => simp [maskWith, Nat.xor_cancel_right, ih]

theorem or_two_pow_add (k a b : Nat) (hb : b < 2 ^ k) :
    2 ^ k * a ||| b = 2 ^ k * a + b := by
  induction k generalizing a b with
  | zero =>
    have : b = 0 := by omega
    simp [this]
  | succ k ih =>
    have hpow : 2 ^ (k + 1) = 2 * 2 ^ k := by ring
    have hmul : 2 ^ (k + 1) * a = 2 * (2 ^ k * a) := by ring
    have hdiv2 : 2 ^ (k + 1) * a / 2 = 2 ^ k * a := by omega
    have hmod2 : 2 ^ (k + 1) * a % 2 = 0 := by omega
    have hb2 : b / 2 < 2 ^ k := by omega
    have hdiv : (2 ^ (k + 1) * a ||| b) / 2 = 2 ^ k * a + b / 2 := by
      rw [Nat.or_div_two, hdiv2, ih a (b / 2) hb2]
    have hmod : (2 ^ (k + 1) * a ||| b) % 2 = b % 2 := by
      rcases Nat.mod_two_eq_zero_or_one b with h | h
      · have : ¬((2 ^ (k + 1) * a ||| b) % 2 = 1) := by
          rw [Nat.or_mod_two_eq_one]
          omega
        omega
      · have : (2 ^ (k + 1) * a ||| b) % 2 = 1 := by
          rw [Nat.or_mod_two_eq_one]
          omega
        omega
    omega

theorem or_byte_add (a b : Nat) (hb : b < 256) :
    a <<< 8 ||| b = 256 * a + b := by
  have h8 : a <<< 8 = 2 ^ 8 * a := by
    rw [Nat.shiftLeft_eq]; ring
  rw [h8, or_two_pow_add 8 a b (by omega)]
  norm_num

theorem and255_eq_mod (x : Nat) : x &&& 255 = x % 256 := by
  have h := Nat.and_pow_two_sub_one_eq_mod x 8
  norm_num at h
  exact h

theorem shiftRight_div (x k : Nat) : x >>> k = x / 2 ^ k :=
  Nat.shiftRight_eq_div_pow x k

theorem header0_spec : ∀ fin' < 2, ∀ op < 16,
    (fin' <<< 7 ||| op) % 256 = fin' <<< 7 ||| op ∧
    ((fin' <<< 7 ||| op) >>> 7) &&& 1 = fin' ∧
    (fin' <<< 7 ||| op) &&& 15 = op := by decide

theorem header1_spec : ∀ lf < 128,
    ((lf ||| 128) >>> 7) &&& 1 = 1 ∧ (lf ||| 128) &&& 127 = lf ∧
    (lf >>> 7) &&& 1 = 0 ∧ lf &&& 127 = lf := by decide

theorem lenField_lt (n : Nat) : lenField n < 128 := by
  unfold lenField
  split <;> [omega; split <;> omega]

theorem lenExtBytes_length (n : Nat) : (lenExtBytes n).length = extLen n := by
  unfold lenExtBytes extLen
  split <;> [rfl; split <;> rfl]

theorem beFold_two (n : Nat) (h : n ≤ 65535) :
    beFold 0 [(n >>> 8) &&& 255, n &&& 255] = n := by
  have h1 : (n >>> 8) &&& 255 = n / 256 % 256 := by
    rw [and255_eq_mod, shiftRight_div]; norm_num
  have h2 : n &&& 255 = n % 256 := and255_eq_mod n
  show beFold ((((0 : Nat) <<< 8 ||| (n >>> 8) &&& 255) <<< 8) ||| n &&& 255) [] = n
  have hz : (0 : Nat) <<< 8 ||| (n >>> 8) &&& 255 = (n >>> 8) &&& 255 := by
    simp [Nat.shiftLeft_eq]
  rw [hz, h1, h2]
  unfold beFold
  rw [or_byte_add _ _ (by omega)]
  omega

theorem beFold_eq_foldl (bs : List Nat) (acc : Nat) (h : ∀ b ∈ bs, b < 256) :
    beFold acc bs = bs.foldl (fun a b => 256 * a + b) acc := by
  induction bs generalizing acc with
  | nil => rfl
  | cons b bs ih =>
    simp only [beFold, List.foldl_cons]
    rw [or_byte_add acc b (h b (by simp)), ih _ (fun x hx => h x (by simp [hx]))]

theorem beFold_eight (n : Nat) (h : n < 2 ^ 64) :
    beFold 0 [(n >>> 56) &&& 255, (n >>> 48) &&& 255, (n >>> 40) &&& 255,
              (n >>> 32) &&& 255, (n >>> 24) &&& 255, (n >>> 16) &&& 255,
              (n >>> 8) &&& 255, n &&& 255] = n := by
  simp only [and255_eq_mod, shiftRight_div]
  rw [beFold_eq_foldl]
  · simp only [List.foldl_cons, List.foldl_nil]
    norm_num
    omega
  · intro b hb
    simp only [List.mem_cons, List.not_mem_nil, or_false] at hb
    rcases hb with rfl | rfl | rfl | rfl | rfl | rfl | rfl | rfl <;>
      exact Nat.mod_lt _ (by norm_num)

theorem vws_serialize_length (f : vws_frame) (key : List Nat)
    (hdata : f.data.length = f.size) (hkey : f.mask ≠ 0 → key.length = 4) :
    (vws_serialize f key).length =
      2 + extLen f.size + (if f.mask ≠ 0 then 4 else 0) + f.size := by
  unfold vws_serialize
  split_ifs with hm
  · simp [List.length_append, lenExtBytes_length, maskWith_length,
          List.length_take, hkey hm, hdata]
    omega
  · simp [List.length_append, lenExtBytes_length, List.length_take, hdata]
    omega

theorem deserialize_cons_masked (b0 b1 : Nat) (rest : List Nat) (c0 : Nat)
    (hmaskbit : (b1 >>> 7) &&& 1 ≠ 0) (sb : Nat)
    (hsb : sb = if b1 &&& 127 = 126 then 2 else if b1 &&& 127 = 127 then 8 else 0)
    (len : Nat)
    (hlen : len = if 0 < sb then beFold 0 (rest.take sb) else b1 &&& 127)
    (hwrap : 2 + sb + 4 + len < 2 ^ 64)
    (hsize : sb + 4 + len ≤ rest.length) :
    vws_deserialize (b0 :: b1 :: rest) c0 =
      (fs_t.FRAME_COMPLETE,
       some { fin := (b0 >>> 7) &&& 1, opcode := b0 &&& 15,
              mask := (b1 >>> 7) &&& 1, offset := 2 + sb + 4, size := len,
              data := maskWith ((rest.drop sb).take 4) 0
                        ((rest.drop (sb + 4)).take len) },
       2 + sb + 4 + len) := by
  subst hsb
  subst hlen
  simp only [vws_deserialize]
  rw [Nat.mod_eq_of_lt hwrap]
  rw [if_neg (by omega), if_pos hmaskbit, if_neg (by omega)]

theorem deserialize_cons_unmasked (b0 b1 : Nat) (rest : List Nat) (c0 : Nat)
    (hmaskbit : (b1 >>> 7) &&& 1 = 0) (sb : Nat)
    (hsb : sb = if b1 &&& 127 = 126 then 2 else if b1 &&& 127 = 127 then 8 else 0)
    (len : Nat)
    (hlen : len = if 0 < sb then beFold 0 (rest.take sb) else b1 &&& 127)
    (hwrap : 2 + sb + len < 2 ^ 64)
    (hsize : sb + len ≤ rest.length) :
    vws_deserialize (b0 :: b1 :: rest) c0 =
      (fs_t.FRAME_COMPLETE,
       some { fin := (b0 >>> 7) &&& 1, opcode := b0 &&& 15,
              mask := (b1 >>> 7) &&& 1, offset := 2 + sb, size := len,
              data := (rest.drop sb).take len },
       2 + sb + len) := by
  subst hsb
  subst hlen
  simp only [vws_deserialize]
  rw [Nat.mod_eq_of_lt hwrap]
  rw [if_neg (by omega), if_neg (by simp [hmaskbit]), if_neg (by omega)]

theorem take_all_of_len (l : List Nat) (n : Nat) (h : l.length = n) :
    l.take n = l := by
  rw [← h, List.take_length]

theorem deserialize_serialize_masked_core (f : vws_frame) (key tail : List Nat)
    (c0 : Nat) (hfin : f.fin < 2) (hop : f.opcode < 16) (hmask : f.mask ≠ 0)
    (hsize : f.size < 2 ^ 63)
    (hdata : f.data.length = f.size) (hkey : key.length = 4)
    (hsb : (if lenField f.size = 126 then 2
            else if lenField f.size = 127 then 8 else 0) = extLen f.size)
    (hbe : (if 0 < extLen f.size then beFold 0 (lenExtBytes f.size)
            else lenField f.size) = f.size) :
    vws_deserialize (vws_serialize f key ++ tail) c0 =
      (fs_t.FRAME_COMPLETE,
       some { fin := f.fin, opcode := f.opcode, mask := 1,
              offset := 2 + extLen f.size + 4, size := f.size, data := f.data },
       2 + extLen f.size + 4 + f.size) := by
  have hextlen := lenExtBytes_length f.size
  have htake : f.data.take f.size = f.data := take_all_of_len _ _ hdata
  obtain ⟨hh0, hh0fin, hh0op⟩ := header0_spec f.fin hfin f.opcode hop
  obtain ⟨hb1m, hb1s, -, -⟩ := header1_spec (lenField f.size) (lenField_lt f.size)
  have hmlen : (maskWith key 0 f.data).length = f.size := by
    rw [maskWith_length, hdata]
  simp only [vws_serialize]
  rw [if_pos hmask, htake, hh0]
  simp only [List.cons_append, List.append_assoc]
  set R := lenExtBytes f.size ++ (key ++ (maskWith key 0 f.data ++ tail)) with hR
  have hRlen : R.length = extLen f.size + (4 + (f.size + tail.length)) := by
    simp [hR, hextlen, hmlen, hkey]
  have hRtake : R.take (extLen f.size) = lenExtBytes f.size :=
    List.take_left' hextlen
  have hRdrop : R.drop (extLen f.size) = key ++ (maskWith key 0 f.data ++ tail) :=
    List.drop_left' hextlen
  have hkey4 : (R.drop (extLen f.size)).take 4 = key := by
    rw [hRdrop]; exact List.take_left' hkey
  have hRdrop2 : R.drop (extLen f.size + 4) = maskWith key 0 f.data ++ tail := by
    have hsplit : R = (lenExtBytes f.size ++ key) ++ (maskWith key 0 f.data ++ tail) := by
      simp [hR, List.append_assoc]
    rw [hsplit, List.drop_left' (by simp [hextlen, hkey])]
  have hpay : (R.drop (extLen f.size + 4)).take f.size = maskWith key 0 f.data := by
    rw [hRdrop2]; exact List.take_left' hmlen
  have hext8 : extLen f.size ≤ 8 := by
    unfold extLen
    split_ifs <;> omega
  rw [deserialize_cons_masked _ _ R c0 (by simp [hb1m]) (extLen f.size)
        (by rw [hb1s]; exact hsb.symm) f.size
        (by rw [hRtake, hb1s]; exact hbe.symm)
        (by omega)
        (by omega)]
  simp only [hh0fin, hh0op, hb1m, hkey4, hpay, maskWith_maskWith]

theorem length_regime_sb (n : Nat) :
    (if lenField n = 126 then 2 else if lenField n = 127 then 8 else 0)
      = extLen n := by
  unfold lenField extLen
  split_ifs <;> omega

theorem length_regime_be (n : Nat) (h : n < 2 ^ 64) :
    (if 0 < extLen n then beFold 0 (lenExtBytes n) else lenField n) = n := by
  unfold extLen lenExtBytes lenField
  split_ifs <;>
    first
      | omega
      | (exact beFold_two n (by omega))
      | (exact beFold_eight n h)

theorem deserialize_serialize_masked (f : vws_frame) (key tail : List Nat)
    (c0 : Nat) (hfin : f.fin < 2) (hop : f.opcode < 16) (hmask : f.mask ≠ 0)
    (hsize : f.size < 2 ^ 63) (hdata : f.data.length = f.size)
    (hkey : key.length = 4) :
    vws_deserialize (vws_serialize f key ++ tail) c0 =
      (fs_t.FRAME_COMPLETE,
       some { fin := f.fin, opcode := f.opcode, mask := 1,
              offset := 2 + extLen f.size + 4, size := f.size, data := f.data },
       2 + extLen f.size + 4 + f.size) :=
  deserialize_serialize_masked_core f key tail c0 hfin hop hmask hsize hdata
    hkey (length_regime_sb f.size) (length_regime_be f.size (by omega))

theorem deserialize_serialize_unmasked_core (f : vws_frame) (tail : List Nat)
    (c0 : Nat) (hfin : f.fin < 2) (hop : f.opcode < 16) (hmask : f.mask = 0)
    (hsize : f.size < 2 ^ 63)
    (hdata : f.data.length = f.size)
    (hsb : (if lenField f.size = 126 then 2
            else if lenField f.size = 127 then 8 else 0) = extLen f.size)
    (hbe : (if 0 < extLen f.size then beFold 0 (lenExtBytes f.size)
            else lenField f.size) = f.size) :
    ∀ key : List Nat,
    vws_deserialize (vws_serialize f key ++ tail) c0 =
      (fs_t.FRAME_COMPLETE,
       some { fin := f.fin, opcode := f.opcode, mask := 0,
              offset := 2 + extLen f.size, size := f.size, data := f.data },
       2 + extLen f.size + f.size) := by
  intro key
  have hextlen := lenExtBytes_length f.size
  have htake : f.data.take f.size = f.data := take_all_of_len _ _ hdata
  obtain ⟨hh0, hh0fin, hh0op⟩ := header0_spec f.fin hfin f.opcode hop
  obtain ⟨-, -, hb1m, hb1s⟩ := header1_spec (lenField f.size) (lenField_lt f.size)
  simp only [vws_serialize]
  rw [if_neg (by simp [hmask]), htake, hh0]
  simp only [List.cons_append, List.append_assoc]
  set R := lenExtBytes f.size ++ (f.data ++ tail) with hR
  have hRlen : R.length = extLen f.size + (f.size + tail.length) := by
    simp [hR, hextlen, hdata]
  have hRtake : R.take (extLen f.size) = lenExtBytes f.size :=
    List.take_left' hextlen
  have hRdrop : R.drop (extLen f.size) = f.data ++ tail :=
    List.drop_left' hextlen
  have hpay : (R.drop (extLen f.size)).take f.size = f.data := by
    rw [hRdrop]; exact List.take_left' hdata
  have hext8 : extLen f.size ≤ 8 := by
    unfold extLen
    split_ifs <;> omega
  rw [deserialize_cons_unmasked _ _ R c0 (by simp [hb1m]) (extLen f.size)
        (by rw [hb1s]; exact hsb.symm) f.size
        (by rw [hRtake, hb1s]; exact hbe.symm)
        (by omega)
        (by omega)]
  simp only [hh0fin, hh0op, hb1m, hpay]

theorem deserialize_serialize_unmasked (f : vws_frame) (key tail : List Nat)
    (c0 : Nat) (hfin : f.fin < 2) (hop : f.opcode < 16) (hmask : f.mask = 0)
    (hsize : f.size < 2 ^ 63) (hdata : f.data.length = f.size) :
    vws_deserialize (vws_serialize f key ++ tail) c0 =
      (fs_t.FRAME_COMPLETE,
       some { fin := f.fin, opcode := f.opcode, mask := 0,
              offset := 2 + extLen f.size, size := f.size, data := f.data },
       2 + extLen f.size + f.size) :=
  deserialize_serialize_unmasked_core f tail c0 hfin hop hmask hsize hdata
    (length_regime_sb f.size) (length_regime_be f.size (by omega)) key

/-- Big-endian byte expansion as the specification words it: byte i of a
w-byte value n is n divided by 256 to the power w-1-i, modulo 256. -/
def beBytesSpec (w n : Nat) : List Nat :=
  (List.range w).map (fun i => n / 256 ^ (w - 1 - i) % 256)

theorem lenExtBytes_eq_beBytesSpec (n : Nat) :
    lenExtBytes n = beBytesSpec (extLen n) n := by
  unfold lenExtBytes extLen beBytesSpec
  split_ifs with h1 h2
  · rfl
  · simp only [and255_eq_mod, shiftRight_div]
    norm_num [List.range_succ]
  · simp only [and255_eq_mod, shiftRight_div]
    norm_num [List.range_succ]

/-- Claim C1: deserializing the serialization of any masked frame (fin bit,
4-bit opcode, payload up to 2 to the 63rd minus one bytes, any 4-byte key)
returns a complete frame agreeing with the original on fin, opcode and
payload bytes, with consumed equal to the whole buffer length. -/
theorem serialize_deserialize_roundtrip_masked (f : vws_frame)
    (key : List Nat) (c0 : Nat) (hmask : f.mask ≠ 0) (hfin : f.fin < 2)
    (hop : f.opcode < 16) (hsize : f.size < 2 ^ 63)
    (hdata : f.data.length = f.size) (hkey : key.length = 4) :
    ∃ f' : vws_frame,
      vws_deserialize (vws_serialize f key) c0 =
        (fs_t.FRAME_COMPLETE, some f', (vws_serialize f key).length) ∧
      f'.fin = f.fin ∧ f'.opcode = f.opcode ∧
      f'.data = f.data ∧ f'.size = f.size := by
  have h := deserialize_serialize_masked f key [] c0 hfin hop hmask
    (by omega) hdata hkey
  rw [List.append_nil] at h
  have hlen := vws_serialize_length f key hdata (fun _ => hkey)
  rw [if_pos hmask] at hlen
  rw [hlen]
  exact ⟨_, h, rfl, rfl, rfl, rfl⟩

/-- Witness for claim C1 at a concrete masked TEXT frame with payload bytes
104 and 105 and key bytes 7 7 7 7. -/
theorem serialize_deserialize_roundtrip_masked_witness :
    (1 : Nat) ≠ 0 ∧
    ∃ f' : vws_frame,
      vws_deserialize
          (vws_serialize ⟨1, 1, 1, 0, 2, [104, 105]⟩ [7, 7, 7, 7]) 0 =
        (fs_t.FRAME_COMPLETE, some f',
         (vws_serialize ⟨1, 1, 1, 0, 2, [104, 105]⟩ [7, 7, 7, 7]).length) ∧
      f'.fin = 1 ∧ f'.opcode = 1 ∧ f'.data = [104, 105] ∧ f'.size = 2 :=
  ⟨by decide,
   serialize_deserialize_roundtrip_masked ⟨1, 1, 1, 0, 2, [104, 105]⟩
     [7, 7, 7, 7] 0 (by decide) (by decide) (by decide) (by norm_num)
     (by decide) (by decide)⟩

/-- Claim C2: the buffer produced by vws_serialize starts with the byte
fin shifted 7 ORed with opcode, then the byte mask-bit shifted 7 ORed with
the length field (the length itself, or sentinel 126 with 2 big-endian
extended bytes, or sentinel 127 with 8), then the 4-byte key iff masked,
then the possibly masked payload, for a total of 2 plus extended-length
bytes plus 4-iff-masked plus payload length. -/
theorem vws_serialize_wire_format (f : vws_frame) (key : List Nat)
    (hfin : f.fin < 2) (hop : f.opcode < 16) (hmaskb : f.mask < 2)
    (hdata : f.data.length = f.size) (hkey : key.length = 4) :
    vws_serialize f key =
      ((f.fin <<< 7 ||| f.opcode) :: (f.mask <<< 7 ||| lenField f.size) ::
        beBytesSpec (extLen f.size) f.size)
      ++ (if f.mask ≠ 0 then key else [])
      ++ (if f.mask ≠ 0 then maskWith key 0 f.data else f.data) ∧
    (vws_serialize f key).length =
      2 + extLen f.size + (if f.mask ≠ 0 then 4 else 0) + f.size := by
  obtain ⟨hh0, -, -⟩ := header0_spec f.fin hfin f.opcode hop
  have htake : f.data.take f.size = f.data := take_all_of_len _ _ hdata
  refine ⟨?_, vws_serialize_length f key hdata (fun _ => hkey)⟩
  rw [← lenExtBytes_eq_beBytesSpec]
  unfold vws_serialize
  interval_cases hm : f.mask
  · rw [if_neg (by omega), if_neg (by omega), if_neg (by omega)]
    simp [htake, hh0]
  · rw [if_pos (by omega), if_pos (by omega), if_pos (by omega)]
    simp only [htake, hh0]
    have : (1 : Nat) <<< 7 ||| lenField f.size = lenField f.size ||| 128 := by
      rw [Nat.lor_comm]
      rfl
    rw [this]
    simp [List.append_assoc]

/-- Witness for claim C2 at a concrete masked frame of payload length 126
(sentinel 126 regime) and at the zero key. -/
theorem vws_serialize_wire_format_witness :
    vws_serialize ⟨1, 2, 1, 0, 0, []⟩ [9, 8, 7, 6] =
      ((1 <<< 7 ||| 2) :: (1 <<< 7 ||| lenField 0) :: beBytesSpec (extLen 0) 0)
      ++ (if (1 : Nat) ≠ 0 then [9, 8, 7, 6] else [])
      ++ (if (1 : Nat) ≠ 0 then maskWith [9, 8, 7, 6] 0 [] else []) ∧
    (vws_serialize ⟨1, 2, 1, 0, 0, []⟩ [9, 8, 7, 6]).length =
      2 + extLen 0 + (if (1 : Nat) ≠ 0 then 4 else 0) + 0 :=
  vws_serialize_wire_format ⟨1, 2, 1, 0, 0, []⟩ [9, 8, 7, 6]
    (by decide) (by decide) (by decide) (by decide) (by decide)

/-- Supporting lemma: on any input holding fewer bytes than the (size_t,
hence wrapped) required-byte count the code computes, vws_deserialize
reports FRAME_INCOMPLETE and leaves the callers consumed value unchanged;
being a pure reader it cannot alter the input bytes.  This is the guard
the code actually implements; the claim of a guard against the declared
length itself fails in the wrap window, see the claim C3 theorem. -/
theorem vws_deserialize_incomplete_no_consume (data : List Nat) (c0 : Nat)
    (h : data.length < required_bytes data) :
    vws_deserialize data c0 = (fs_t.FRAME_INCOMPLETE, none, c0) := by
  match data with
  | [] => rfl
  | [b] => rfl
  | b0 :: b1 :: rest =>
    simp only [required_bytes, List.length_cons] at h
    simp only [vws_deserialize]
    split_ifs <;> try rfl
    all_goals exfalso
    all_goals simp_all
    all_goals omega

/-- Instance of the supporting lemma: a masked header declaring a 2-byte
payload with too few bytes present; consumed stays at the callers 7. -/
theorem vws_deserialize_incomplete_no_consume_witness :
    ([129, 130, 1, 2, 3] : List Nat).length < required_bytes [129, 130, 1, 2, 3] ∧
    vws_deserialize [129, 130, 1, 2, 3] 7 = (fs_t.FRAME_INCOMPLETE, none, 7) :=
  ⟨by decide, vws_deserialize_incomplete_no_consume [129, 130, 1, 2, 3] 7 (by decide)⟩

/-- Claim C3 (code bug): the C local required_bytes is a size_t, so on a
16-byte masked slice whose 8-byte extended length declares 2 to the 64th
minus 1 payload bytes the requirement wraps to 13; the size check passes
although far fewer payload bytes than declared are present, and instead of
returning FRAME_INCOMPLETE with consumed untouched the parser proceeds (in
C it allocates the declared length and reads out of bounds).  This theorem
evaluates the embedding at that failing input: the wrapped requirement is
13, the declared length is 2 to the 64th minus 1, and the result is
FRAME_COMPLETE with consumed overwritten to 13, not FRAME_INCOMPLETE. -/
theorem vws_deserialize_sizet_wrap_bug :
    required_bytes
        [129, 255, 255, 255, 255, 255, 255, 255, 255, 255, 0, 0, 0, 0, 0, 0]
      = 13 ∧
    beFold 0 (([129, 255, 255, 255, 255, 255, 255, 255, 255, 255,
        0, 0, 0, 0, 0, 0] : List Nat).drop 2 |>.take 8) = 2 ^ 64 - 1 ∧
    ([129, 255, 255, 255, 255, 255, 255, 255, 255, 255,
        0, 0, 0, 0, 0, 0] : List Nat).length = 16 ∧
    (vws_deserialize
        [129, 255, 255, 255, 255, 255, 255, 255, 255, 255, 0, 0, 0, 0, 0, 0]
        0).1 = fs_t.FRAME_COMPLETE ∧
    (vws_deserialize
        [129, 255, 255, 255, 255, 255, 255, 255, 255, 255, 0, 0, 0, 0, 0, 0]
        0).2.2 = 13 := by
  refine ⟨by decide, by decide, by decide, ?_, ?_⟩ <;> decide

/-- A reassembled WebSocket message (struct vws_msg): an opcode and the
concatenated payload bytes. -/
structure vws_msg where
  opcode : Nat
  data : List Nat
deriving DecidableEq, Repr

instance : Inhabited vws_frame := ⟨⟨0, 0, 0, 0, 0, []⟩⟩

/-- Modelled from the spec: the frame queue collaborator (sc_queue, not part
of this repository).  Per the spec, incoming frames are enqueued at the head
with add_first and dequeued from the tail with del_last, which is FIFO.  The
queue is represented as a list in arrival order, oldest frame first; the
add_first of the C code appends the newest frame at the end of this list and
del_last removes the head. -/
def queue_add_first (q : List vws_frame) (f : vws_frame) : List vws_frame :=
  q ++ [f]

/-- Embedding of has_complete_message (websocket.c lines 1272 to 1284): true
iff some queued frame has fin equal to 1. -/
def has_complete_message (q : List vws_frame) : Bool :=
  q.any (fun f => f.fin == 1)

/-- The dequeue loop of vws_msg_pop: starting from the sentinel opcode 100,
repeatedly remove the oldest frame, take its opcode if the sentinel is still
in place, append its payload, and stop after the first frame whose fin is 1.
Returns the message opcode, accumulated payload, and remaining queue. -/
def msg_pop_loop : Nat → List Nat → List vws_frame →
    Nat × List Nat × List vws_frame
  | oc, acc, [] => (oc, acc, [])
  | oc, acc, f :: rest =>
    let oc' := if oc = 100 then f.opcode else oc
    let acc' := acc ++ f.data
    if f.fin = 1 then (oc', acc', rest)
    else msg_pop_loop oc' acc' rest

/-- Embedding of vws_msg_pop (websocket.c lines 1229 to 1270): null when no
queued frame has fin 1, otherwise the message assembled by the dequeue loop
together with the remaining queue.  The dequeued frames are freed by the C
code after their payload is copied; in the embedding they simply no longer
appear in the returned queue. -/
def vws_msg_pop (q : List vws_frame) : Option vws_msg × List vws_frame :=
  if has_complete_message q then
    let r := msg_pop_loop 100 [] q
    (some { opcode := r.1, data := r.2.1 }, r.2.2)
  else (none, q)

theorem msg_pop_loop_after_first (oc : Nat) (hoc : oc ≠ 100)
    (pre : List vws_frame) (f0 : vws_frame) (post : List vws_frame)
    (acc : List Nat) (hpre : ∀ g ∈ pre, g.fin ≠ 1) (hf : f0.fin = 1) :
    msg_pop_loop oc acc (pre ++ f0 :: post) =
      (oc, acc ++ ((pre ++ [f0]).map vws_frame.data).flatten, post) := by
  induction pre generalizing acc with
  | nil =>
    simp [msg_pop_loop, hoc, hf]
  | cons g pre ih =>
    have hg : g.fin ≠ 1 := hpre g (by simp)
    simp only [List.cons_append, msg_pop_loop, if_neg hoc, if_neg hg,
               List.append_eq]
    rw [ih _ (fun x hx => hpre x (by simp [hx]))]
    simp [List.append_assoc]

/-- Claim C4: vws_msg_pop returns null exactly when no queued frame has
fin 1; otherwise it returns the message whose opcode is that of the first
dequeued (oldest) frame and whose payload is the concatenation, in dequeue
order, of the payloads up to and including the first fin frame, and exactly
those frames are removed from the queue.  Queued frames come from the
deserializer, so their opcodes are 4-bit values, below the sentinel 100. -/
theorem vws_msg_pop_correct :
    (∀ q : List vws_frame, (∀ f ∈ q, f.fin ≠ 1) →
      vws_msg_pop q = (none, q)) ∧
    (∀ (pre : List vws_frame) (f0 : vws_frame) (post : List vws_frame),
      (∀ g ∈ pre ++ [f0], g.opcode < 16) →
      (∀ g ∈ pre, g.fin ≠ 1) → f0.fin = 1 →
      vws_msg_pop (pre ++ f0 :: post) =
        (some { opcode := ((pre ++ [f0]).headI).opcode,
                data := ((pre ++ [f0]).map vws_frame.data).flatten },
         post)) := by
  constructor
  · intro q hq
    unfold vws_msg_pop
    rw [if_neg]
    simp only [has_complete_message, List.any_eq_true, not_exists]
    push_neg
    intro f hf
    simpa using hq f hf
  · intro pre f0 post hocs hpre hf
    unfold vws_msg_pop
    rw [if_pos]
    · match pre, hpre, hocs with
      | [], _, hocs =>
        have hoc0 : f0.opcode ≠ 100 := by
          have := hocs f0 (by simp)
          omega
        simp [msg_pop_loop, hf]
      | g :: pre, hpre, hocs =>
        have hg : g.fin ≠ 1 := hpre g (by simp)
        have hgoc : g.opcode ≠ 100 := by
          have := hocs g (by simp)
          omega
        simp only [List.cons_append, msg_pop_loop, if_neg hg, List.append_eq,
                   reduceIte]
        rw [msg_pop_loop_after_first g.opcode hgoc pre f0 post _
             (fun x hx => hpre x (by simp [hx])) hf]
        simp
    · simp only [has_complete_message, List.any_eq_true]
      exact ⟨f0, by simp, by simp [hf]⟩

/-- Witness for claim C4: a queue with no fin frame yields null; a queue
holding a TEXT fragment followed by a fin CONTINUATION and one later frame
yields the TEXT opcode with concatenated payload, leaving the later frame. -/
theorem vws_msg_pop_correct_witness :
    vws_msg_pop [⟨0, 1, 0, 0, 1, [5]⟩] = (none, [⟨0, 1, 0, 0, 1, [5]⟩]) ∧
    vws_msg_pop ([⟨0, 1, 0, 0, 1, [1, 2]⟩] ++ ⟨1, 0, 0, 0, 1, [3]⟩ ::
        [⟨1, 2, 0, 0, 1, [9]⟩]) =
      (some { opcode := 1, data := [1, 2, 3] }, [⟨1, 2, 0, 0, 1, [9]⟩]) := by
  constructor
  · exact vws_msg_pop_correct.1 [⟨0, 1, 0, 0, 1, [5]⟩] (by decide)
  · have h := vws_msg_pop_correct.2 [⟨0, 1, 0, 0, 1, [1, 2]⟩]
      ⟨1, 0, 0, 0, 1, [3]⟩ [⟨1, 2, 0, 0, 1, [9]⟩]
      (by decide) (by decide) (by decide)
    simpa using h

/-- Connection-state flag CNX_CLOSED = 0 (websocket.c cnx_flags_t). -/
def CNX_CLOSED : Nat := 0

/-- Connection-state flag CNX_CONNECTED = 2 (websocket.c cnx_flags_t). -/
def CNX_CONNECTED : Nat := 2

/-- Connection-state flag CNX_CLOSING = 4 (websocket.c cnx_flags_t). -/
def CNX_CLOSING : Nat := 4

/-- Modelled from the spec: vws_set_flag (declared in the missing header
vrtql.h) sets a bit in a flag set, so it ORs the flag into the word. -/
def vws_set_flag (flags flag : Nat) : Nat := flags ||| flag

/-- The part of a WebSocket connection (struct vws_cnx) that the dispatch
path reads and writes: the flag word and the inbound frame queue. -/
structure vws_cnx where
  flags : Nat
  queue : List vws_frame
deriving DecidableEq, Repr

/-- The network-byte-order representation htons produces for a 16-bit
status code: high byte first. -/
def htons_bytes (x : Nat) : List Nat := [x / 256 % 256, x % 256]

/-- Embedding of vws_frame_new (websocket.c lines 705 to 725): a frame with
fin 1 and mask 1 holding a private copy of the first s input bytes. -/
def vws_frame_new (data : List Nat) (s : Nat) (oc : Nat) : vws_frame :=
  { fin := 1, opcode := oc, mask := 1, offset := 0, size := s,
    data := data.take s }

/-- Embedding of vws_generate_close_frame (websocket.c lines 1206 to 1218):
serialize a fresh CLOSE frame whose 2-byte payload is the status 1000 in
network byte order; key is the masking key the serializer draws. -/
def vws_generate_close_frame (key : List Nat) : List Nat :=
  vws_serialize (vws_frame_new (htons_bytes 1000) 2 CLOSE_FRAME) key

/-- Embedding of vws_generate_pong_frame (websocket.c lines 1220 to 1227):
serialize a fresh PONG frame carrying the ping payload; key is the masking
key the serializer draws. -/
def vws_generate_pong_frame (ping_data : List Nat) (s : Nat)
    (key : List Nat) : List Nat :=
  vws_serialize (vws_frame_new ping_data s PONG_FRAME) key

/-- Embedding of process_frame (websocket.c lines 991 to 1055).  The key
parameter is the masking key the serializer draws for the response frame
(used only on the CLOSE and PING paths).  Returns the updated connection
and the list of buffers written to the socket; the input frame is freed on
every path except the enqueueing one, where ownership moves to the queue. -/
def process_frame (c : vws_cnx) (f : vws_frame) (key : List Nat) :
    vws_cnx × List (List Nat) :=
  if f.opcode = CLOSE_FRAME then
    ({ c with flags := vws_set_flag c.flags CNX_CLOSING },
     [vws_generate_close_frame key])
  else if f.opcode = TEXT_FRAME ∨ f.opcode = BINARY_FRAME ∨
          f.opcode = CONTINUATION_FRAME then
    ({ c with queue := queue_add_first c.queue f }, [])
  else if f.opcode = PING_FRAME then
    (c, [vws_generate_pong_frame f.data f.size key])
  else
    (c, [])

/-- Claim C5: process_frame answers a PING with a serialized PONG carrying
the identical payload, discards a PONG without writing, reacts to CLOSE by
setting the CNX_CLOSING flag and writing a serialized CLOSE whose payload
starts with the big-endian status 1000, and enqueues TEXT, BINARY and
CONTINUATION frames (head insertion in the C queue, i.e. as newest
element preserving arrival order). -/
theorem process_frame_dispatch :
    (∀ (c : vws_cnx) (f : vws_frame) (key : List Nat),
      f.opcode = PING_FRAME → f.data.length = f.size → f.size < 2 ^ 63 →
      key.length = 4 →
      ∃ (w : List Nat) (pong : vws_frame),
        process_frame c f key = (c, [w]) ∧
        vws_deserialize w 0 = (fs_t.FRAME_COMPLETE, some pong, w.length) ∧
        pong.opcode = PONG_FRAME ∧ pong.data = f.data ∧ pong.fin = 1) ∧
    (∀ (c : vws_cnx) (f : vws_frame) (key : List Nat),
      f.opcode = PONG_FRAME → process_frame c f key = (c, [])) ∧
    (∀ (c : vws_cnx) (f : vws_frame) (key : List Nat),
      f.opcode = CLOSE_FRAME → key.length = 4 →
      ∃ (w : List Nat) (closef : vws_frame),
        process_frame c f key =
          ({ c with flags := vws_set_flag c.flags CNX_CLOSING }, [w]) ∧
        vws_deserialize w 0 = (fs_t.FRAME_COMPLETE, some closef, w.length) ∧
        closef.opcode = CLOSE_FRAME ∧ closef.data = [3, 232] ∧
        3 * 256 + 232 = 1000) ∧
    (∀ (c : vws_cnx) (f : vws_frame) (key : List Nat),
      f.opcode = TEXT_FRAME ∨ f.opcode = BINARY_FRAME ∨
        f.opcode = CONTINUATION_FRAME →
      process_frame c f key = ({ c with queue := c.queue ++ [f] }, [])) := by
  refine ⟨?_, ?_, ?_, ?_⟩
  · intro c f key hping hdata hsize hkey
    have htake : f.data.take f.size = f.data := take_all_of_len _ _ hdata
    have hglen : (f.data.take f.size).length = f.size := by rw [htake, hdata]
    have hrt := deserialize_serialize_masked
      (vws_frame_new f.data f.size PONG_FRAME) key [] 0
      (by norm_num [vws_frame_new]) (by norm_num [vws_frame_new, PONG_FRAME])
      (by norm_num [vws_frame_new]) (by simpa [vws_frame_new] using by omega)
      (by simpa [vws_frame_new] using hglen) hkey
    rw [List.append_nil] at hrt
    have hwlen := vws_serialize_length (vws_frame_new f.data f.size PONG_FRAME)
      key (by simpa [vws_frame_new] using hglen) (fun _ => hkey)
    rw [if_pos (by norm_num [vws_frame_new])] at hwlen
    refine ⟨vws_generate_pong_frame f.data f.size key,
      { fin := 1, opcode := PONG_FRAME, mask := 1,
        offset := 2 + extLen f.size + 4, size := f.size,
        data := f.data.take f.size }, ?_, ?_, rfl, by rw [htake], rfl⟩
    · unfold process_frame
      rw [if_neg (by rw [hping]; decide), if_neg (by rw [hping]; decide),
          if_pos hping]
    · unfold vws_generate_pong_frame
      rw [hrt, hwlen]
      simp [vws_frame_new, PONG_FRAME]
  · intro c f key hpong
    unfold process_frame
    rw [if_neg (by rw [hpong]; decide), if_neg (by rw [hpong]; decide),
        if_neg (by rw [hpong]; decide)]
  · intro c f key hclose hkey
    have hct : htons_bytes 1000 = [3, 232] := by norm_num [htons_bytes]
    have hglen : ((htons_bytes 1000).take 2).length = 2 := by rw [hct]; rfl
    have hrt := deserialize_serialize_masked
      (vws_frame_new (htons_bytes 1000) 2 CLOSE_FRAME) key [] 0
      (by norm_num [vws_frame_new]) (by norm_num [vws_frame_new, CLOSE_FRAME])
      (by norm_num [vws_frame_new]) (by norm_num [vws_frame_new])
      (by simpa [vws_frame_new] using hglen) hkey
    rw [List.append_nil] at hrt
    have hwlen := vws_serialize_length
      (vws_frame_new (htons_bytes 1000) 2 CLOSE_FRAME) key
      (by simpa [vws_frame_new] using hglen) (fun _ => hkey)
    rw [if_pos (by norm_num [vws_frame_new])] at hwlen
    refine ⟨vws_generate_close_frame key,
      { fin := 1, opcode := CLOSE_FRAME, mask := 1,
        offset := 2 + extLen 2 + 4, size := 2,
        data := (htons_bytes 1000).take 2 }, ?_, ?_, rfl,
      by rw [hct]; rfl, by norm_num⟩
    · unfold process_frame
      rw [if_pos hclose]
    · unfold vws_generate_close_frame
      rw [hrt, hwlen]
      simp [vws_frame_new, CLOSE_FRAME]
  · intro c f key hdataop
    unfold process_frame
    rw [if_neg (by rcases hdataop with h | h | h <;> rw [h] <;> decide),
        if_pos hdataop]
    rfl

/-- Witness for claim C5 at concrete PING, PONG, CLOSE and TEXT frames with
the key bytes 1 2 3 4. -/
theorem process_frame_dispatch_witness :
    (∃ (w : List Nat) (pong : vws_frame),
      process_frame ⟨0, []⟩ ⟨1, 9, 0, 0, 1, [120]⟩ [1, 2, 3, 4] =
        (⟨0, []⟩, [w]) ∧
      vws_deserialize w 0 = (fs_t.FRAME_COMPLETE, some pong, w.length) ∧
      pong.opcode = PONG_FRAME ∧ pong.data = [120] ∧ pong.fin = 1) ∧
    process_frame ⟨0, []⟩ ⟨1, 10, 0, 0, 0, []⟩ [1, 2, 3, 4] = (⟨0, []⟩, []) ∧
    (∃ (w : List Nat) (closef : vws_frame),
      process_frame ⟨0, []⟩ ⟨1, 8, 0, 0, 0, []⟩ [1, 2, 3, 4] =
        (⟨vws_set_flag 0 CNX_CLOSING, []⟩, [w]) ∧
      vws_deserialize w 0 = (fs_t.FRAME_COMPLETE, some closef, w.length) ∧
      closef.opcode = CLOSE_FRAME ∧ closef.data = [3, 232] ∧
      3 * 256 + 232 = 1000) ∧
    process_frame ⟨0, []⟩ ⟨1, 1, 0, 0, 1, [97]⟩ [1, 2, 3, 4] =
      (⟨0, [⟨1, 1, 0, 0, 1, [97]⟩]⟩, []) := by
  refine ⟨?_, ?_, ?_, ?_⟩
  · exact process_frame_dispatch.1 ⟨0, []⟩ ⟨1, 9, 0, 0, 1, [120]⟩ [1, 2, 3, 4]
      rfl rfl (by norm_num) rfl
  · exact process_frame_dispatch.2.1 ⟨0, []⟩ ⟨1, 10, 0, 0, 0, []⟩ [1, 2, 3, 4]
      rfl
  · exact process_frame_dispatch.2.2.1 ⟨0, []⟩ ⟨1, 8, 0, 0, 0, []⟩ [1, 2, 3, 4]
      rfl rfl
  · have h := process_frame_dispatch.2.2.2 ⟨0, []⟩ ⟨1, 1, 0, 0, 1, [97]⟩
      [1, 2, 3, 4] (Or.inl rfl)
    simpa using h

/-- Embedding of the drain loop of vws_cnx_ingress (websocket.c lines 1144
to 1204).  The fuel counter bounds the iterations (each pass strictly
shrinks the buffer, so any fuel above the buffer length is enough); keys is
the stream of masking keys the serializer draws for the response of each
dispatched frame, indexed by kidx; total accumulates consumed bytes and
writes the socket writes.  The returned quadruple is the final connection,
the remaining buffer, all writes, and the value the C function returns:
total_consumed when the loop ends on an empty buffer, but 0 when it ends
on an incomplete (or error) parse. -/
def ingress_loop (fuel : Nat) (c : vws_cnx) (buf : List Nat)
    (keys : Nat → List Nat) (kidx : Nat) (total : Nat)
    (writes : List (List Nat)) :
    vws_cnx × List Nat × List (List Nat) × Nat :=
  match fuel with
  | 0 => (c, buf, writes, 0)
  | fuel + 1 =>
    if buf.length = 0 then (c, buf, writes, total)
    else
      match vws_deserialize buf 0 with
      | (fs_t.FRAME_ERROR, _, _) => (c, buf, writes, 0)
      | (fs_t.FRAME_INCOMPLETE, _, _) => (c, buf, writes, 0)
      | (fs_t.FRAME_COMPLETE, some frame, consumed) =>
        let r := process_frame c frame (keys kidx)
        ingress_loop fuel r.1 (buf.drop consumed) keys (kidx + 1)
          (total + consumed) (writes ++ r.2)
      | (fs_t.FRAME_COMPLETE, none, _) => (c, buf, writes, 0)

/-- Embedding of vws_cnx_ingress: run the drain loop on the receive buffer
with fresh accumulators and ample fuel. -/
def vws_cnx_ingress (c : vws_cnx) (buf : List Nat)
    (keys : Nat → List Nat) : vws_cnx × List Nat × List (List Nat) × Nat :=
  ingress_loop (buf.length + 1) c buf keys 0 0 []

/-- Dispatching a list of frames in order through process_frame, starting
at response-key index i: the specification-side fold that the ingress loop
should realize. -/
def dispatch_from (c : vws_cnx) (keys : Nat → List Nat) (i : Nat) :
    List vws_frame → vws_cnx × List (List Nat)
  | [] => (c, [])
  | f :: fs =>
    let r := process_frame c f (keys i)
    let rest := dispatch_from r.1 keys (i + 1) fs
    (rest.1, r.2 ++ rest.2)

/-- Concatenation of the serializations of a list of frames, each with the
wire masking key chosen for it. -/
def serializeAll (items : List (vws_frame × List Nat)) : List Nat :=
  (items.map (fun p => vws_serialize p.1 p.2)).flatten

/-- The frame vws_deserialize reconstructs from the serialization of f: fin,
opcode, size and payload agree with f; the mask field is the wire mask bit
and offset is the position where the payload starts. -/
def wire_image (f : vws_frame) : vws_frame :=
  if f.mask ≠ 0 then
    { fin := f.fin, opcode := f.opcode, mask := 1,
      offset := 2 + extLen f.size + 4, size := f.size, data := f.data }
  else
    { fin := f.fin, opcode := f.opcode, mask := 0,
      offset := 2 + extLen f.size, size := f.size, data := f.data }

/-- Well-formedness of a frame and its wire key: fin is a bit, the opcode is
4 bits, size is below 2 to the 63rd and matches the payload, and a masked
frame carries a 4-byte key. -/
def frame_wf (p : vws_frame × List Nat) : Prop :=
  p.1.fin < 2 ∧ p.1.opcode < 16 ∧ p.1.size < 2 ^ 63 ∧
  p.1.data.length = p.1.size ∧ (p.1.mask ≠ 0 → p.2.length = 4)

theorem deserialize_serialize_wf (p : vws_frame × List Nat)
    (hp : frame_wf p) (tail : List Nat) :
    vws_deserialize (vws_serialize p.1 p.2 ++ tail) 0 =
      (fs_t.FRAME_COMPLETE, some (wire_image p.1),
       (vws_serialize p.1 p.2).length) := by
  obtain ⟨hfin, hop, hsize, hdata, hkey⟩ := hp
  by_cases hm : p.1.mask ≠ 0
  · rw [deserialize_serialize_masked p.1 p.2 tail 0 hfin hop hm (by omega)
          hdata (hkey hm)]
    rw [vws_serialize_length p.1 p.2 hdata hkey, if_pos hm]
    rw [wire_image, if_pos hm]
  · have hm0 : p.1.mask = 0 := by omega
    rw [deserialize_serialize_unmasked p.1 p.2 tail 0 hfin hop hm0 (by omega)
          hdata]
    rw [vws_serialize_length p.1 p.2 hdata hkey, if_neg hm]
    rw [wire_image, if_neg hm]
    norm_num

theorem serialize_length_ge_two (p : vws_frame × List Nat)
    (hp : frame_wf p) : 2 ≤ (vws_serialize p.1 p.2).length := by
  obtain ⟨-, -, -, hdata, hkey⟩ := hp
  rw [vws_serialize_length p.1 p.2 hdata hkey]
  omega

theorem ingress_loop_frames (keys : Nat → List Nat) (rest : List Nat)
    (hrest : vws_deserialize rest 0 = (fs_t.FRAME_INCOMPLETE, none, 0)) :
    ∀ (items : List (vws_frame × List Nat)) (c : vws_cnx)
      (kidx total : Nat) (writes : List (List Nat)) (fuel : Nat),
      (∀ p ∈ items, frame_wf p) →
      (serializeAll items ++ rest).length + 1 ≤ fuel →
      ingress_loop fuel c (serializeAll items ++ rest) keys kidx total writes =
        ((dispatch_from c keys kidx (items.map (fun p => wire_image p.1))).1,
         rest,
         writes ++
           (dispatch_from c keys kidx (items.map (fun p => wire_image p.1))).2,
         if rest.length = 0 then total + (serializeAll items).length else 0) := by
  intro items
  induction items with
  | nil =>
    intro c kidx total writes fuel hwf hfuel
    obtain ⟨fuel, rfl⟩ : ∃ k, fuel = k + 1 := ⟨fuel - 1, by omega⟩
    simp only [serializeAll, List.map_nil, List.flatten_nil, List.nil_append,
               dispatch_from, List.length_nil] at *
    by_cases hr : rest.length = 0
    · have : rest = [] := List.length_eq_zero.mp hr
      subst this
      simp [ingress_loop]
    · simp only [ingress_loop, if_neg hr, hrest]
      simp [hr]
  | cons p items ih =>
    intro c kidx total writes fuel hwf hfuel
    have hp : frame_wf p := hwf p (by simp)
    have hwf' : ∀ q ∈ items, frame_wf q := fun q hq => hwf q (by simp [hq])
    have hser : serializeAll (p :: items) =
        vws_serialize p.1 p.2 ++ serializeAll items := by
      simp [serializeAll]
    have hlen2 := serialize_length_ge_two p hp
    obtain ⟨fuel, rfl⟩ : ∃ k, fuel = k + 1 := ⟨fuel - 1, by omega⟩
    rw [hser, List.append_assoc]
    have hbuf : (vws_serialize p.1 p.2 ++ (serializeAll items ++ rest)).length =
        (vws_serialize p.1 p.2).length + (serializeAll items ++ rest).length := by
      simp
    have hchunk := deserialize_serialize_wf p hp (serializeAll items ++ rest)
    simp only [ingress_loop, if_neg (by omega :
        ¬(vws_serialize p.1 p.2 ++ (serializeAll items ++ rest)).length = 0),
      hchunk]
    rw [List.drop_left]
    rw [ih _ (kidx + 1) _ _ fuel hwf' (by rw [hser] at hfuel; simp at hfuel ⊢; omega)]
    simp only [List.map_cons, dispatch_from, List.append_assoc]
    simp only [List.length_append]
    have harith : total + (vws_serialize p.1 p.2).length +
        (serializeAll items).length =
        total + ((vws_serialize p.1 p.2).length + (serializeAll items).length) := by
      omega
    rw [harith]

/-- Claim C6 (amended): a single vws_cnx_ingress call on a buffer holding k
complete frames followed by an incomplete remainder dispatches exactly those
k frames in order through process_frame and drains exactly their bytes,
leaving the remainder as the buffer; the returned count is the total number
of bytes consumed when the remainder is empty, but 0 when the loop stops on
a nonempty incomplete remainder (the C code returns 0 from the
FRAME_INCOMPLETE branch instead of total_consumed). -/
theorem vws_cnx_ingress_dispatch (c : vws_cnx) (keys : Nat → List Nat)
    (items : List (vws_frame × List Nat)) (rest : List Nat)
    (hwf : ∀ p ∈ items, frame_wf p)
    (hrest : vws_deserialize rest 0 = (fs_t.FRAME_INCOMPLETE, none, 0)) :
    vws_cnx_ingress c (serializeAll items ++ rest) keys =
      ((dispatch_from c keys 0 (items.map (fun p => wire_image p.1))).1,
       rest,
       (dispatch_from c keys 0 (items.map (fun p => wire_image p.1))).2,
       if rest.length = 0 then (serializeAll items).length else 0) := by
  unfold vws_cnx_ingress
  rw [ingress_loop_frames keys rest hrest items c 0 0 [] _ hwf (by omega)]
  simp

/-- Witness for amended claim C6: one unmasked TEXT frame with payload 97
followed by the incomplete remainder byte 129. -/
theorem vws_cnx_ingress_dispatch_witness :
    vws_cnx_ingress ⟨0, []⟩
        (serializeAll [(⟨1, 1, 0, 0, 1, [97]⟩, [])] ++ [129])
        (fun _ => [0, 0, 0, 0]) =
      ((dispatch_from ⟨0, []⟩ (fun _ => [0, 0, 0, 0]) 0
          ([(⟨1, 1, 0, 0, 1, [97]⟩, ([] : List Nat))].map
            (fun p => wire_image p.1))).1,
       [129],
       (dispatch_from ⟨0, []⟩ (fun _ => [0, 0, 0, 0]) 0
          ([(⟨1, 1, 0, 0, 1, [97]⟩, ([] : List Nat))].map
            (fun p => wire_image p.1))).2,
       if ([129] : List Nat).length = 0 then
         (serializeAll [(⟨1, 1, 0, 0, 1, [97]⟩, [])]).length else 0) :=
  vws_cnx_ingress_dispatch ⟨0, []⟩ (fun _ => [0, 0, 0, 0])
    [(⟨1, 1, 0, 0, 1, [97]⟩, [])] [129]
    (by
      intro p hp
      simp only [List.mem_singleton] at hp
      subst hp
      unfold frame_wf
      refine ⟨by norm_num, by norm_num, by norm_num, rfl, fun h => ?_⟩
      exact absurd rfl h)
    (by decide)

/-- Counterexample to claim C6 as stated: on the buffer 129 0 129 (one
complete 2-byte frame then one leftover byte) the call drains the frame,
leaving only the byte 129, so 2 bytes were consumed, yet it returns 0, not
the total number of bytes consumed during the call. -/
theorem vws_cnx_ingress_return_zero :
    (vws_cnx_ingress ⟨0, []⟩ [129, 0, 129] (fun _ => [0, 0, 0, 0])).2.1 =
      [129] ∧
    (vws_cnx_ingress ⟨0, []⟩ [129, 0, 129] (fun _ => [0, 0, 0, 0])).2.2.2 = 0 ∧
    (vws_cnx_ingress ⟨0, []⟩ [129, 0, 129] (fun _ => [0, 0, 0, 0])).2.2.2 ≠ 2 := by
  decide

/-- Modelled from the spec: 32-bit left rotation used by SHA-1 (the SHA-1
primitive is an external collaborator, OpenSSL, not part of this
repository; it is modelled here from the standard the spec names). -/
def rotl32 (n x : Nat) : Nat :=
  ((x <<< n) ||| (x >>> (32 - n))) % 4294967296

/-- Modelled from the spec: grouping a byte stream into big-endian 32-bit
words for SHA-1. -/
def bytesToWords : List Nat → List Nat
  | a :: b :: c :: d :: rest =>
    (((a * 256 + b) * 256 + c) * 256 + d) :: bytesToWords rest
  | _ => []

/-- Modelled from the spec: SHA-1 message-schedule expansion, operating on
the reversed word list (newest word first) so that the four taps are at
positions 2, 7, 13 and 15 from the front. -/
def sha1_expandRev (ws : List Nat) : Nat → List Nat
  | 0 => ws
  | n + 1 =>
    sha1_expandRev
      (rotl32 1 ((ws.getD 2 0 ^^^ ws.getD 7 0) ^^^ (ws.getD 13 0 ^^^ ws.getD 15 0))
        :: ws) n

/-- Modelled from the spec: the SHA-1 round function for round i. -/
def sha1_f (i b c d : Nat) : Nat :=
  if i < 20 then (b &&& c) ||| ((b ^^^ 4294967295) &&& d)
  else if i < 40 then (b ^^^ c) ^^^ d
  else if i < 60 then ((b &&& c) ||| (b &&& d)) ||| (c &&& d)
  else (b ^^^ c) ^^^ d

/-- Modelled from the spec: the SHA-1 round constant for round i. -/
def sha1_k (i : Nat) : Nat :=
  if i < 20 then 1518500249 else if i < 40 then 1859775393
  else if i < 60 then 2400959708 else 3395469782

/-- Modelled from the spec: one SHA-1 round on the five-word state. -/
def sha1_round (i w : Nat) (st : Nat × Nat × Nat × Nat × Nat) :
    Nat × Nat × Nat × Nat × Nat :=
  let a := st.1
  let b := st.2.1
  let c := st.2.2.1
  let d := st.2.2.2.1
  let e := st.2.2.2.2
  ((rotl32 5 a + sha1_f i b c d + e + sha1_k i + w) % 4294967296,
   a, rotl32 30 b, c, d)

/-- Modelled from the spec: SHA-1 compression of one 64-byte chunk into the
running five-word state. -/
def sha1_compress (h : Nat × Nat × Nat × Nat × Nat) (chunk : List Nat) :
    Nat × Nat × Nat × Nat × Nat :=
  let w80 := (sha1_expandRev (bytesToWords chunk).reverse 64).reverse
  let st := (List.range 80).foldl
    (fun st i => sha1_round i (w80.getD i 0) st) h
  ((h.1 + st.1) % 4294967296,
   (h.2.1 + st.2.1) % 4294967296,
   (h.2.2.1 + st.2.2.1) % 4294967296,
   (h.2.2.2.1 + st.2.2.2.1) % 4294967296,
   (h.2.2.2.2 + st.2.2.2.2) % 4294967296)

/-- Modelled from the spec: folding SHA-1 compression over the 64-byte
chunks of the padded message; the first argument counts the chunks. -/
def sha1_blocks (h : Nat × Nat × Nat × Nat × Nat) :
    Nat → List Nat → Nat × Nat × Nat × Nat × Nat
  | 0, _ => h
  | n + 1, l => sha1_blocks (sha1_compress h (l.take 64)) n (l.drop 64)

/-- Modelled from the spec: SHA-1 padding: the byte 128, zeros up to 8
bytes short of a 64-byte boundary, then the bit length big-endian in 8
bytes. -/
def sha1_pad (msg : List Nat) : List Nat :=
  msg ++ 128 :: (List.replicate ((64 - (msg.length + 9) % 64) % 64) 0 ++
    beBytesSpec 8 (msg.length * 8))

/-- Modelled from the spec: SHA-1 of a byte sequence, yielding the 20
digest bytes. -/
def sha1 (msg : List Nat) : List Nat :=
  let p := sha1_pad msg
  let h := sha1_blocks
    (1732584193, 4023233417, 2562383102, 271733878, 3285377520)
    (p.length / 64) p
  beBytesSpec 4 h.1 ++ beBytesSpec 4 h.2.1 ++ beBytesSpec 4 h.2.2.1 ++
    beBytesSpec 4 h.2.2.2.1 ++ beBytesSpec 4 h.2.2.2.2

/-- Modelled from the spec: character i of the standard Base64 alphabet, as
an ASCII code. -/
def b64Char (i : Nat) : Nat :=
  if i < 26 then 65 + i
  else if i < 52 then 97 + (i - 26)
  else if i < 62 then 48 + (i - 52)
  else if i = 62 then 43 else 47

/-- Modelled from the spec: Base64 encoding without newlines and with
padding retained (the Base64 primitive is an external collaborator,
OpenSSL BIO, not part of this repository). -/
def base64_encode : List Nat → List Nat
  | a :: b :: c :: rest =>
    let x := (a * 256 + b) * 256 + c
    b64Char (x / 262144) :: b64Char (x / 4096 % 64) ::
      b64Char (x / 64 % 64) :: b64Char (x % 64) :: base64_encode rest
  | [a, b] =>
    let x := (a * 256 + b) * 256
    [b64Char (x / 262144), b64Char (x / 4096 % 64), b64Char (x / 64 % 64), 61]
  | [a] =>
    let x := a * 65536
    [b64Char (x / 262144), b64Char (x / 4096 % 64), 61, 61]
  | [] => []

/-- ASCII bytes of a string constant. -/
def strBytes (s : String) : List Nat := s.toList.map Char.toNat

/-- The fixed WebSocket GUID appended to the client key (websocket.c line
1080). -/
def WS_GUID_BYTES : List Nat := strBytes "258EAFA5-E914-47DA-95CA-C5AB0DC85B11"

/-- Embedding of vws_accept_key (websocket.c lines 1077 to 1100):
Base64 of the SHA-1 hash of the client key concatenated with the GUID. -/
def vws_accept_key (key : List Nat) : List Nat :=
  base64_encode (sha1 (key ++ WS_GUID_BYTES))

/-- Embedding of verify_handshake (websocket.c lines 1102 to 1109): strcmp
of the computed accept key against the servers response, equal or not. -/
def verify_handshake (key response : List Nat) : Bool :=
  vws_accept_key key == response

set_option maxRecDepth 10000 in
/-- Claim C7: vws_accept_key is Base64 of SHA-1 of the key concatenated
with the WebSocket GUID; verify_handshake succeeds exactly when the
response is byte-for-byte that value; and the RFC 6455 sample key yields
the documented accept value. -/
theorem vws_accept_key_correct :
    (∀ key : List Nat,
      vws_accept_key key = base64_encode (sha1 (key ++ WS_GUID_BYTES))) ∧
    (∀ key response : List Nat,
      verify_handshake key response = true ↔ response = vws_accept_key key) ∧
    vws_accept_key (strBytes "dGhlIHNhbXBsZSBub25jZQ==") =
      strBytes "s3pPLMBiTxaQ9kYGzzhZRbK+xOo=" := by
  refine ⟨fun _ => rfl, ?_, by decide⟩
  intro key r
  unfold verify_handshake
  rw [beq_iff_eq]
  exact eq_comm

/-- Error kinds of the per-thread last-error record (vrtql.h, per spec
section 6). -/
inductive vws_error_code where
  | VE_NONE
  | VE_WARN
  | VE_TIMEOUT
  | VE_SYS
  | VE_RT
  | VE_SOCKET
  | VE_MEM
  | VE_FATAL
deriving DecidableEq, Repr

/-- The state the send path reads and writes: the socket descriptor of the
connection (connected iff positive) and the per-thread last-error kind. -/
structure send_state where
  sockfd : Int
  err : vws_error_code
deriving DecidableEq, Repr

/-- Embedding of vws_socket_is_connected (socket.c lines 228 to 236): the
descriptor is positive. -/
def vws_socket_is_connected (sockfd : Int) : Bool := sockfd > 0

/-- Embedding of vws_cnx_is_connected (websocket.c lines 386 to 395): on a
disconnected socket it submits a VE_SOCKET error and reports false. -/
def vws_cnx_is_connected (st : send_state) : Bool × send_state :=
  if vws_socket_is_connected st.sockfd then (true, st)
  else (false, { st with err := vws_error_code.VE_SOCKET })

/-- Embedding of vws_frame_send (websocket.c lines 611 to 649).  key is the
masking key the serializer draws; writeResult abstracts the byte count
vws_socket_write returns on the connected path (the connection cannot
change under the single-threaded model between the two connectivity
checks).  Returns the C return value, the final state, and the buffers
written to the socket. -/
def vws_frame_send (st : send_state) (frame : vws_frame) (key : List Nat)
    (writeResult : Int) : Int × send_state × List (List Nat) :=
  match vws_cnx_is_connected st with
  | (false, st1) => (-1, st1, [])
  | (true, st1) =>
    (writeResult, { st1 with err := vws_error_code.VE_NONE },
     [vws_serialize frame key])

/-- Embedding of vws_frame_send_data (websocket.c lines 591 to 594). -/
def vws_frame_send_data (st : send_state) (data : List Nat) (size oc : Nat)
    (key : List Nat) (writeResult : Int) :
    Int × send_state × List (List Nat) :=
  vws_frame_send st (vws_frame_new data size oc) key writeResult

/-- Embedding of vws_msg_send_text (websocket.c lines 596 to 599): send the
whole byte string as a TEXT frame. -/
def vws_msg_send_text (st : send_state) (data : List Nat) (key : List Nat)
    (writeResult : Int) : Int × send_state × List (List Nat) :=
  vws_frame_send_data st data data.length TEXT_FRAME key writeResult

/-- Embedding of vws_msg_send_binary (websocket.c lines 601 to 604). -/
def vws_msg_send_binary (st : send_state) (data : List Nat) (size : Nat)
    (key : List Nat) (writeResult : Int) :
    Int × send_state × List (List Nat) :=
  vws_frame_send_data st data size BINARY_FRAME key writeResult

/-- Claim C8 (amended): a send on a connection whose socket is closed
returns -1 immediately without writing, with the per-thread last-error
kind set to SOCKET by vws_cnx_is_connected (not RT: vws_frame_send returns
before reaching vws_socket_write, whose not-connected branch is the one
that sets RT). -/
theorem vws_send_closed_sets_socket_error (st : send_state)
    (frame : vws_frame) (data key : List Nat) (size : Nat) (wr : Int)
    (h : vws_socket_is_connected st.sockfd = false) :
    vws_frame_send st frame key wr =
      (-1, { st with err := vws_error_code.VE_SOCKET }, []) ∧
    vws_msg_send_text st data key wr =
      (-1, { st with err := vws_error_code.VE_SOCKET }, []) ∧
    vws_msg_send_binary st data size key wr =
      (-1, { st with err := vws_error_code.VE_SOCKET }, []) := by
  have hc : vws_cnx_is_connected st =
      (false, { st with err := vws_error_code.VE_SOCKET }) := by
    unfold vws_cnx_is_connected
    rw [h]
    simp
  unfold vws_msg_send_text vws_msg_send_binary vws_frame_send_data
    vws_frame_send
  rw [hc]
  exact ⟨rfl, rfl, rfl⟩

/-- Witness for amended claim C8 at the closed descriptor 0. -/
theorem vws_send_closed_sets_socket_error_witness :
    vws_socket_is_connected (0 : Int) = false ∧
    vws_frame_send ⟨0, vws_error_code.VE_NONE⟩ ⟨1, 1, 1, 0, 0, []⟩
        [0, 0, 0, 0] 0 =
      (-1, ⟨0, vws_error_code.VE_SOCKET⟩, []) ∧
    vws_msg_send_text ⟨0, vws_error_code.VE_NONE⟩ [97] [0, 0, 0, 0] 0 =
      (-1, ⟨0, vws_error_code.VE_SOCKET⟩, []) ∧
    vws_msg_send_binary ⟨0, vws_error_code.VE_NONE⟩ [97] 1 [0, 0, 0, 0] 0 =
      (-1, ⟨0, vws_error_code.VE_SOCKET⟩, []) :=
  ⟨by decide,
   vws_send_closed_sets_socket_error ⟨0, vws_error_code.VE_NONE⟩
     ⟨1, 1, 1, 0, 0, []⟩ [97] [0, 0, 0, 0] 1 0 (by decide)⟩

/-- Counterexample to claim C8 as stated: on a closed connection the send
returns -1 but the last-error kind is SOCKET, not RT. -/
theorem vws_frame_send_closed_not_rt :
    (vws_frame_send ⟨0, vws_error_code.VE_NONE⟩ ⟨1, 1, 1, 0, 0, []⟩
        [0, 0, 0, 0] 0).2.1.err = vws_error_code.VE_SOCKET ∧
    vws_error_code.VE_SOCKET ≠ vws_error_code.VE_RT := by decide

theorem generate_close_frame_content (key : List Nat) (hkey : key.length = 4) :
    vws_deserialize (vws_generate_close_frame key) 0 =
      (fs_t.FRAME_COMPLETE,
       some { fin := 1, opcode := CLOSE_FRAME, mask := 1,
              offset := 2 + extLen 2 + 4, size := 2, data := [3, 232] },
       (vws_generate_close_frame key).length) := by
  have hct : htons_bytes 1000 = [3, 232] := by norm_num [htons_bytes]
  have hglen : ((htons_bytes 1000).take 2).length = 2 := by rw [hct]; rfl
  have hrt := deserialize_serialize_masked
    (vws_frame_new (htons_bytes 1000) 2 CLOSE_FRAME) key [] 0
    (by norm_num [vws_frame_new]) (by norm_num [vws_frame_new, CLOSE_FRAME])
    (by norm_num [vws_frame_new]) (by norm_num [vws_frame_new])
    (by simpa [vws_frame_new] using hglen) hkey
  rw [List.append_nil] at hrt
  have hwlen := vws_serialize_length
    (vws_frame_new (htons_bytes 1000) 2 CLOSE_FRAME) key
    (by simpa [vws_frame_new] using hglen) (fun _ => hkey)
  rw [if_pos (by norm_num [vws_frame_new])] at hwlen
  unfold vws_generate_close_frame
  rw [hrt, hwlen]
  simp [vws_frame_new, CLOSE_FRAME, hct]

/-- The connection state vws_disconnect reads and writes: the socket
descriptor, the flag word, and whether a disconnect hook is registered.
The per-thread error record is thread state, not connection state, and is
not part of this structure. -/
structure cnx_life where
  sockfd : Int
  flags : Nat
  hasHook : Bool
deriving DecidableEq, Repr

/-- Embedding of vws_disconnect (websocket.c lines 540 to 575).  key is
the masking key the serializer draws for the CLOSE frame; the write loop
is modelled as delivering the whole buffer (the abstract socket accepts
every byte).  Returns the new state, the buffers written, and whether the
registered disconnect hook was invoked. -/
def vws_disconnect (st : cnx_life) (key : List Nat) :
    cnx_life × List (List Nat) × Bool :=
  if vws_socket_is_connected st.sockfd then
    ({ st with flags := CNX_CLOSED, sockfd := -1 },
     [vws_generate_close_frame key], st.hasHook)
  else (st, [], false)

/-- Claim C9: on a connected connection vws_disconnect invokes the hook
iff one is registered, sets the flags to CNX_CLOSED, writes one serialized
CLOSE frame whose payload is the big-endian status 1000, and closes the
socket; calling it again on the resulting state returns immediately with
no hook call, no write, and no state change. -/
theorem vws_disconnect_idempotent (st : cnx_life) (key key2 : List Nat)
    (h : vws_socket_is_connected st.sockfd = true) (hkey : key.length = 4) :
    vws_disconnect st key =
      ({ st with flags := CNX_CLOSED, sockfd := -1 },
       [vws_generate_close_frame key], st.hasHook) ∧
    (∃ closef : vws_frame,
      vws_deserialize (vws_generate_close_frame key) 0 =
        (fs_t.FRAME_COMPLETE, some closef,
         (vws_generate_close_frame key).length) ∧
      closef.opcode = CLOSE_FRAME ∧ closef.data = [3, 232] ∧
      3 * 256 + 232 = 1000) ∧
    vws_disconnect { st with flags := CNX_CLOSED, sockfd := -1 } key2 =
      ({ st with flags := CNX_CLOSED, sockfd := -1 }, [], false) := by
  refine ⟨?_, ⟨_, generate_close_frame_content key hkey, rfl, rfl, by norm_num⟩, ?_⟩
  · unfold vws_disconnect
    rw [h]
    simp
  · unfold vws_disconnect
    rw [if_neg (by simp [vws_socket_is_connected])]

/-- Witness for claim C9 at a connected state with descriptor 5, flags
CNX_CONNECTED, a registered hook, and key bytes 1 2 3 4. -/
theorem vws_disconnect_idempotent_witness :
    vws_socket_is_connected (5 : Int) = true ∧
    (vws_disconnect ⟨5, CNX_CONNECTED, true⟩ [1, 2, 3, 4] =
      (⟨-1, CNX_CLOSED, true⟩, [vws_generate_close_frame [1, 2, 3, 4]], true) ∧
    (∃ closef : vws_frame,
      vws_deserialize (vws_generate_close_frame [1, 2, 3, 4]) 0 =
        (fs_t.FRAME_COMPLETE, some closef,
         (vws_generate_close_frame [1, 2, 3, 4]).length) ∧
      closef.opcode = CLOSE_FRAME ∧ closef.data = [3, 232] ∧
      3 * 256 + 232 = 1000) ∧
    vws_disconnect ⟨-1, CNX_CLOSED, true⟩ [9, 9, 9, 9] =
      (⟨-1, CNX_CLOSED, true⟩, [], false)) :=
  ⟨by decide,
   vws_disconnect_idempotent ⟨5, CNX_CONNECTED, true⟩ [1, 2, 3, 4]
     [9, 9, 9, 9] (by decide) (by decide)⟩

/-- Embedding of vws_reconnect (websocket.c lines 371 to 384): when the
connection is already connected it returns true at once; otherwise, when a
URL is stored, it calls cnx_connect but discards the result (abstracted as
connectOk, which becomes the new connectivity) and returns false.  The
pair is the return value and the connectivity after the call. -/
def vws_reconnect (connected hasUrl connectOk : Bool) : Bool × Bool :=
  if connected then (true, connected)
  else if hasUrl then (false, connectOk)
  else (false, connected)

/-- Claim C10: vws_reconnect returns false whenever the connection was not
connected at the time of the call, even when the internal cnx_connect
attempt succeeds; it returns true only when already connected. -/
theorem vws_reconnect_discards_result :
    (∀ hasUrl connectOk : Bool,
      (vws_reconnect false hasUrl connectOk).1 = false) ∧
    (∀ hasUrl connectOk : Bool,
      (vws_reconnect true hasUrl connectOk).1 = true) := by decide
